import Mathlib

/-!
Verification of the tab-session coordinator (`tab.ts` and its
snapshot/selector helpers).

Shallow embedding of the per-tab session coordinator of the
`fast-playwright-mcp` repository.  Strings are modelled as `List Char`
(JavaScript strings indexed by position); machine time is `Nat`
milliseconds; promise/event races are modelled as explicit event traces.
-/

namespace Tab

/-- JavaScript whitespace characters that matter for the code under study
(`trim`, `trimStart` remove them from the ends of a string). -/
def isWsChar (c : Char) : Bool :=
  c = ' ' || c = '\n' || c = '\t' || c = '\r'

/-- Model of JavaScript `String.prototype.trimStart`. -/
def trimStartL (s : List Char) : List Char :=
  s.dropWhile isWsChar

/-- Model of JavaScript `String.prototype.trim` (both ends). -/
def trimL (s : List Char) : List Char :=
  ((s.dropWhile isWsChar).reverse.dropWhile isWsChar).reverse

/-- The word-boundary test of `_truncateAtWordBoundary`:
`text[i] === ' ' || text[i] === '\n'`. -/
def isBoundaryChar (c : Char) : Bool :=
  c = ' ' || c = '\n'

/-- The descending search loop of `_truncateAtWordBoundary`:
`for (let i = maxLength - 1; i >= 0; i--) if (text[i] === ' ' || text[i] === '\n') ...`.
`findLastBoundary text n` inspects indices `n-1, n-2, …, 0` and returns the
first (i.e. largest) index holding a space or line break, if any. -/
def findLastBoundary (text : List Char) : Nat → Option Nat
  | 0 => none
  | n + 1 =>
    if isBoundaryChar (text.getD n ' ') then some n
    else findLastBoundary text n

/-- Embedding of `Tab._truncateAtWordBoundary(text, maxLength)` from
`src/tab.ts`.  A JavaScript character read `text[maxLength]` is defined (the
function is only reached with `text.length > maxLength`) and a one-character
string is always truthy, so the guard reduces to the boundary test. -/
def truncateAtWordBoundary (text : List Char) (maxLength : Nat) : List Char :=
  if text.length ≤ maxLength then text
  else
    let truncateIndex :=
      if isBoundaryChar (text.getD maxLength ' ') then maxLength
      else
        match findLastBoundary text maxLength with
        | some i => if maxLength - i > 20 then maxLength else i
        | none => maxLength
    let result := trimL (text.take truncateIndex)
    if result.length > maxLength then result.take maxLength else result

/-- The full behavioural specification of `_truncateAtWordBoundary` on input
longer than `maxLength`: bounded length, no trailing whitespace, cut exactly
at `maxLength` when the character there is a space or line break, otherwise
cut at the nearest preceding boundary when one lies within 20 characters and
at `maxLength` when it does not (or when no boundary exists at all). -/
def TruncateSpec (text : List Char) (maxLength : Nat) : Prop :=
  (truncateAtWordBoundary text maxLength).length ≤ maxLength ∧
  (∀ c, (truncateAtWordBoundary text maxLength).getLast? = some c →
      isWsChar c = false) ∧
  (isBoundaryChar (text.getD maxLength ' ') = true →
      truncateAtWordBoundary text maxLength = trimL (text.take maxLength)) ∧
  (isBoundaryChar (text.getD maxLength ' ') = false →
    (∀ i, i < maxLength → isBoundaryChar (text.getD i ' ') = true →
        (∀ j, i < j → j < maxLength → isBoundaryChar (text.getD j ' ') = false) →
        truncateAtWordBoundary text maxLength =
          if maxLength - i ≤ 20 then trimL (text.take i)
          else trimL (text.take maxLength)) ∧
    ((∀ j, j < maxLength → isBoundaryChar (text.getD j ' ') = false) →
        truncateAtWordBoundary text maxLength = trimL (text.take maxLength)))

/-! ## Partial snapshot extraction (`_extractPartialSnapshot`) -/
/-- Leading-whitespace count of a line:
`line.length - line.trimStart().length`. -/
def indentOf (line : List Char) : Nat :=
  line.length - (trimStartL line).length

/-- Holds when `pat` is an initial segment of `s`. -/
def startsWithL : List Char → List Char → Bool
  | [], _ => true
  | _ :: _, [] => false
  | p :: ps, c :: cs => p = c && startsWithL ps cs

/-- The line test of `_extractPartialSnapshot`:
`new RegExp(`^- ${expectedRole}\\s*(?:\\[[^\\]]*\\])*\\s*:?`).test(line.trim())`.
Every regex component after `- ${expectedRole}` can match the empty string and
`test` does not require the whole line to be consumed, so for the
alphanumeric roles produced by the landmark mapping the test succeeds exactly
when the trimmed line starts with `"- "` followed by the role. -/
def matchesRole (expectedRole : String) (line : List Char) : Bool :=
  startsWithL ('-' :: ' ' :: expectedRole.data) (trimL line)

/-- The `selectorToRole` record of `_extractPartialSnapshot`, with the
`?? selector` fallback for unknown keys. -/
def roleFor (selector : String) : String :=
  if selector = "main" then "main"
  else if selector = "header" then "banner"
  else if selector = "footer" then "contentinfo"
  else if selector = "nav" then "navigation"
  else if selector = "aside" then "complementary"
  else if selector = "section" then "region"
  else if selector = "article" then "article"
  else selector

/-- The scanning loop of `_extractPartialSnapshot`: skip lines until the
first one matching the role, then capture it and every immediately following
line of strictly deeper indentation, stopping (`break`) at the first line
whose indentation is not deeper. -/
def captureLoop (expectedRole : String) : List (List Char) → List (List Char)
  | [] => []
  | line :: rest =>
    if matchesRole expectedRole line then
      line :: rest.takeWhile (fun l => indentOf line < indentOf l)
    else captureLoop expectedRole rest

/-- Per-line re-indentation of `_extractPartialSnapshot`: empty (all
whitespace) lines are kept as-is, other lines get
`' '.repeat(max 0 (indent - minIndent)) + line.trimStart()`. -/
def normalizeLine (minIndent : Nat) (line : List Char) : List Char :=
  if trimL line = [] then line
  else List.replicate (indentOf line - minIndent) ' ' ++ trimStartL line

/-- Indentation normalisation of the captured block: the minimum indentation
is taken from the first captured line (the landmark's own line). -/
def normalizeLines : List (List Char) → List (List Char)
  | [] => []
  | first :: rest => (first :: rest).map (normalizeLine (indentOf first))

/-- Embedding of `Tab._extractPartialSnapshot(fullSnapshot, selector)` from
`src/tab.ts`. -/
def extractPartialSnapshot (fullSnapshot : List Char) (selector : String) :
    List Char :=
  let lines := fullSnapshot.splitOn '\n'
  let expectedRole := roleFor selector
  let capturedLines := captureLoop expectedRole lines
  if capturedLines.isEmpty then fullSnapshot
  else List.intercalate ['\n'] (normalizeLines capturedLines)

/-- Behavioural specification of `_extractPartialSnapshot` for the landmark
selectors: the role mapping is as documented; when no line matches the role
the full tree is returned unmodified; when a line matches, the result is that
first matching line together with the immediately following strictly-deeper
lines, re-indented by the landmark's own indentation; re-indentation gives
the landmark line zero indentation and shifts every non-blank captured line
left by exactly the landmark's indentation, preserving its content. -/
def ExtractSpec (full : List Char) (selector : String) : Prop :=
  (roleFor "main" = "main" ∧ roleFor "header" = "banner" ∧
   roleFor "footer" = "contentinfo" ∧ roleFor "nav" = "navigation" ∧
   roleFor "aside" = "complementary" ∧ roleFor "section" = "region") ∧
  ((∀ l ∈ full.splitOn '\n', matchesRole (roleFor selector) l = false) →
      extractPartialSnapshot full selector = full) ∧
  (∀ pre line post,
      full.splitOn '\n' = pre ++ line :: post →
      (∀ p ∈ pre, matchesRole (roleFor selector) p = false) →
      matchesRole (roleFor selector) line = true →
      extractPartialSnapshot full selector =
        List.intercalate ['\n']
          ((line :: post.takeWhile (fun l => indentOf line < indentOf l)).map
            (normalizeLine (indentOf line)))) ∧
  (∀ l, matchesRole (roleFor selector) l = true →
      indentOf (normalizeLine (indentOf l) l) = 0) ∧
  (∀ minIndent l, trimL l ≠ [] →
      indentOf (normalizeLine minIndent l) = indentOf l - minIndent ∧
      trimStartL (normalizeLine minIndent l) = trimStartL l) ∧
  (∀ minIndent l, trimL l = [] → normalizeLine minIndent l = l)

/-! ## Navigation tracker (`_handleNavigationStart` / `isNavigating` /
`_createNavigationPromise` / `waitForNavigationComplete`) -/
/-- The `getNavigationTimeouts().staleTimeout` constant from `tab.ts`: `10_000` ms. -/
def staleTimeout : Nat := 10000

/-- The `getNavigationTimeouts().checkInterval` constant from `tab.ts`: `100` ms.
(`navigationTimeout` is `TIMEOUTS.DEFAULT_PAGE_TIMEOUT`, defined in
`config/constants.js`; it is kept as an abstract parameter below.) -/
def checkInterval : Nat := 100

/-- The `_navigationState` record (the `navigationPromise` field is modelled
separately, by the poll loop below). -/
structure NavState where
  isNavigating : Bool
  lastNavigationStart : Nat
deriving DecidableEq

/-- Initial `_navigationState`: `{ isNavigating: false, lastNavigationStart: 0 }`. -/
def initialNavState : NavState := ⟨false, 0⟩

/-- Effect of `_handleNavigationStart()` invoked at time `t`. -/
def handleNavigationStart (t : Nat) (_s : NavState) : NavState :=
  { isNavigating := true, lastNavigationStart := t }

/-- Effect of `_handleNavigationComplete()`. -/
def handleNavigationComplete (s : NavState) : NavState :=
  { s with isNavigating := false }

/-- A navigation-start (main-frame `framenavigated`, with its timestamp) or
navigation-complete (`load`) event.  The claim quantifies over sequences of
exactly these two events. -/
inductive NavEv
  | start (t : Nat)
  | complete
deriving DecidableEq

def navStep (s : NavState) : NavEv → NavState
  | .start t => handleNavigationStart t s
  | .complete => handleNavigationComplete s

/-- State after processing an event sequence in arrival order. -/
def runNav (evs : List NavEv) : NavState :=
  evs.foldl navStep initialNavState

/-- Result of `isNavigating()` queried at time `now`: applies the staleness correction
(forcing the flag false when more than `staleTimeout` has elapsed since the
last navigation start) and returns the flag together with the updated state. -/
def isNavigatingAt (now : Nat) (s : NavState) : Bool × NavState :=
  let isStale : Bool := staleTimeout < now - s.lastNavigationStart
  let s' := if isStale && s.isNavigating then { s with isNavigating := false }
            else s
  (s'.isNavigating, s')

/-- The timestamp of the last navigation start not yet followed by a
completion event, if any. -/
def activeUpd (_acc : Option Nat) : NavEv → Option Nat
  | .start t => some t
  | .complete => none

def activeStart (evs : List NavEv) : Option Nat :=
  evs.foldl activeUpd none

/-- Specification: `isNavigating()` on a run of start/complete events returns true exactly
when the last navigation event is a start with no completion after it and its
elapsed time has not passed the staleness threshold; past the threshold the
result is forced false even without a completion event. -/
def NavigatingSpec (evs : List NavEv) (now : Nat) : Prop :=
  ((isNavigatingAt now (runNav evs)).1 = true ↔
    ∃ t, activeStart evs = some t ∧ now - t ≤ staleTimeout) ∧
  (staleTimeout < now - (runNav evs).lastNavigationStart →
    (isNavigatingAt now (runNav evs)).1 = false)

/-- The polling loop of `_createNavigationPromise`: `checkComplete` runs at
times `t0 + k·interval` (`k ≥ 1`, scheduled by `setTimeout(checkComplete,
checkInterval)` from the promise's creation at the navigation start `t0`).
Each poll re-reads the mutable `_navigationState`: `isNav t` is the raw
`isNavigating` flag at time `t` (no staleness correction is applied here) and
`lastStart t` is `lastNavigationStart` at time `t` — `_handleNavigationStart`
advances it on every overlapping navigation, so it need not stay `t0`.  The
poll resolves when the flag is false, or when more than `navigationTimeout`
has elapsed since the *current* `lastStart t` — that branch also forces
`isNavigating := false`, recorded in the `Bool` of the result.  The
structural `fuel` argument only bounds the recursion depth; the theorems
below show which fuels matter. -/
def pollLoop (isNav : Nat → Bool) (lastStart : Nat → Nat)
    (t0 navigationTimeout interval : Nat) : Nat → Nat → Option (Nat × Bool)
  | 0, _ => none
  | fuel + 1, k =>
    let t := t0 + k * interval
    if !(isNav t) then some (t, false)
    else if navigationTimeout < t - lastStart t then some (t, true)
    else pollLoop isNav lastStart t0 navigationTimeout interval fuel (k + 1)

/-- Resolution of the navigation promise created at navigation start `t0`,
polled every `checkInterval` ms with timeout `navigationTimeout`, followed
for `navigationTimeout / checkInterval + 1` polls — enough to cover every
poll up to `t0 + navigationTimeout + checkInterval`, the bound the spec
claims.  `none` means the promise is still pending past that horizon. -/
def navigationPromiseTime (isNav : Nat → Bool) (lastStart : Nat → Nat)
    (t0 navigationTimeout : Nat) : Option (Nat × Bool) :=
  pollLoop isNav lastStart t0 navigationTimeout checkInterval
    (navigationTimeout / checkInterval + 1) 1

/-- Return time of `waitForNavigationComplete()` called at time `tc`:
returns immediately when no watcher exists, otherwise suspends until the
watcher's promise resolves (never earlier than the call itself). -/
def waitForNavigationCompleteTime
    (watcher : Option ((Nat → Bool) × (Nat → Nat) × Nat))
    (navigationTimeout tc : Nat) : Option Nat :=
  match watcher with
  | none => some tc
  | some (isNav, lastStart, t0) =>
    (navigationPromiseTime isNav lastStart t0 navigationTimeout).map
      (fun r => max tc r.1)

/-- Bounded resolution of the navigation wait in the absence of overlapping
navigation restarts: when `lastNavigationStart` stays `t0` for the whole
wait, the promise created at `t0` resolves at a time
`tr ≤ t0 + navigationTimeout + checkInterval`, at the first poll where the
`isNavigating` flag is false or the timeout has elapsed (whichever comes
first; the timeout branch is the one that forces the flag false), so
`waitForNavigationComplete` called at `tc ≥ t0` returns by
`tc + navigationTimeout + checkInterval`; with no watcher the call returns
immediately. -/
def NavigationWaitSpec (isNav : Nat → Bool) (lastStart : Nat → Nat)
    (navigationTimeout t0 tc : Nat) : Prop :=
  (∃ tr b, navigationPromiseTime isNav lastStart t0 navigationTimeout =
      some (tr, b) ∧
    tr ≤ t0 + navigationTimeout + checkInterval ∧
    ((b = false ∧ isNav tr = false) ∨
      (b = true ∧ navigationTimeout < tr - lastStart tr)) ∧
    (∀ j, 1 ≤ j → t0 + j * checkInterval < tr →
      isNav (t0 + j * checkInterval) = true ∧
      ¬(navigationTimeout < (t0 + j * checkInterval) -
          lastStart (t0 + j * checkInterval))) ∧
    waitForNavigationCompleteTime (some (isNav, lastStart, t0))
      navigationTimeout tc = some (max tc tr) ∧
    max tc tr ≤ tc + navigationTimeout + checkInterval) ∧
  waitForNavigationCompleteTime none navigationTimeout tc = some tc

/-! ## Modal states and the race primitive (`_raceAgainstModalStates`) -/
/-- Modelled from the spec: `ModalState` is declared in `tools/tool.js`,
which is not among the sources; per the spec it is a tagged variant — a
browser `dialog` (with a description) or a pending `fileChooser`.  The race
primitive treats the value opaquely. -/
inductive ModalState
  | dialog (description : String)
  | fileChooser (description : String)
deriving DecidableEq

/-- An event relevant to
`Promise.race([action().then(...), promise])` once the action has been
started: `setModalState` firing the one-shot `modalState` listener, or the
action settling.  A trace lists the events in the order the event loop
delivers them. -/
inductive RaceEv
  | modalAdded (m : ModalState)
  | actionSettles
deriving DecidableEq

/-- State of the race: whether the combined promise has settled (and with
which modal list) and whether the one-shot listener is still installed. -/
structure RaceState where
  settled : Option (List ModalState)
  listenerActive : Bool
deriving DecidableEq

/-- One event-loop step of the race: a modal addition fires the listener if
it is still installed (`once` removes it), resolving the manual promise with
exactly that one modal if nothing has settled yet; the action settling
removes the listener (`this.off`) and resolves with the empty list if
nothing has settled yet. -/
def raceStep (st : RaceState) : RaceEv → RaceState
  | .modalAdded _m =>
    if st.listenerActive then
      { settled := if st.settled = none then some [_m] else st.settled,
        listenerActive := false }
    else st
  | .actionSettles =>
    { settled := if st.settled = none then some [] else st.settled,
      listenerActive := false }

/-- Embedding of `Tab._raceAgainstModalStates(action)`: with pre-existing
modal states it returns them immediately without starting the action;
otherwise it installs the one-shot listener, starts the action, and resolves
with whichever settles first in the event trace (`none` when the trace
contains neither event, i.e. the call is still pending).  The second
component records whether the action was started; nothing in the code ever
cancels a started action. -/
def raceAgainstModalStates (existing : List ModalState)
    (trace : List RaceEv) : Option (List ModalState) × Bool :=
  if existing.length ≠ 0 then (some existing, false)
  else ((trace.foldl raceStep ⟨none, true⟩).settled, true)

/-- Behaviour of the modal race: pre-existing modal states are returned
immediately without starting the action; with no pre-existing modal state,
if the action settles before any modal is added the call returns the empty
list and the listener is removed, and if a modal is added before the action
settles the call returns exactly that one modal (the first added), with the
action started and never cancelled. -/
def RaceSpec (existing : List ModalState) (trace : List RaceEv) : Prop :=
  (existing ≠ [] →
    raceAgainstModalStates existing trace = (some existing, false)) ∧
  (existing = [] → ∀ rest, trace = RaceEv.actionSettles :: rest →
    raceAgainstModalStates existing trace = (some [], true) ∧
    (trace.foldl raceStep ⟨none, true⟩).listenerActive = false) ∧
  (existing = [] → ∀ m rest, trace = RaceEv.modalAdded m :: rest →
    raceAgainstModalStates existing trace = (some [m], true))

/-! ## Tab session state, artifact buffers and snapshot capture -/
/-- A `ConsoleMessage`: severity/type (absent for page errors) and text.  The
`toString` rendering closure carries no additional state and is omitted. -/
structure ConsoleMessage where
  type : Option String
  text : String
deriving DecidableEq

/-- A `_downloads` entry: the driver download handle (identified here by its
suggested file name), the completion flag, and the resolved output path. -/
structure DownloadEntry where
  suggestedFilename : String
  finished : Bool
  outputFile : String
deriving DecidableEq

/-- A `_requests` map entry: a request paired with its response, `null`
until one arrives (requests/responses identified by numeric ids). -/
structure RequestEntry where
  request : Nat
  response : Option Nat
deriving DecidableEq

/-- The buffers and bookkeeping of a `Tab` relevant to the claims; `url`
models what `this.page.url()` currently reports. -/
structure TabState where
  url : String
  lastTitle : String
  consoleMessages : List ConsoleMessage
  recentConsoleMessages : List ConsoleMessage
  requests : List RequestEntry
  downloads : List DownloadEntry
  modalStates : List ModalState
  closeNotifications : Nat
deriving DecidableEq

/-- Effect of `_clearCollectedArtifacts()`: clears the console history, the recent
console buffer and the request map — and nothing else. -/
def clearCollectedArtifacts (s : TabState) : TabState :=
  { s with consoleMessages := [], recentConsoleMessages := [], requests := [] }

/-- Effect of `_handleConsoleMessage(message)`: append to both the full history and
the recent buffer. -/
def handleConsoleMessage (s : TabState) (m : ConsoleMessage) : TabState :=
  { s with consoleMessages := s.consoleMessages ++ [m],
           recentConsoleMessages := s.recentConsoleMessages ++ [m] }

/-- Effect of `_onClose()`: clear the collected artifacts, then notify the owning
context (`this._onPageClose(this)`) once. -/
def onClose (s : TabState) : TabState :=
  let s1 := clearCollectedArtifacts s
  { s1 with closeNotifications := s1.closeNotifications + 1 }

/-- The `TabSnapshot` record returned by snapshot capture. -/
structure TabSnapshot where
  url : String
  title : String
  ariaSnapshot : List Char
  modalStates : List ModalState
  consoleMessages : List ConsoleMessage
  downloads : List DownloadEntry
deriving DecidableEq

/-- Outcome of the modal race around the capture action (only consulted when
no modal state pre-exists): the capture action settles first, or a modal
state is added first. -/
inductive CaptureOutcome
  | actionCompletes
  | modalInterrupts (m : ModalState)
deriving DecidableEq

structure CaptureResult where
  snapshot : TabSnapshot
  state : TabState
  actionStarted : Bool
deriving DecidableEq

/-- The aria text computed by the capture action: the full driver snapshot,
scoped to the selector when one is given, then truncated when a (truthy)
`maxLength` is given and the text exceeds it. -/
def captureText (selector : Option String) (maxLength : Option Nat)
    (ariaFull : List Char) : List Char :=
  let snapText :=
    match selector with
    | some sel => extractPartialSnapshot ariaFull sel
    | none => ariaFull
  match maxLength with
  | some ml =>
    if 0 < ml ∧ ml < snapText.length then truncateAtWordBoundary snapText ml
    else snapText
  | none => snapText

/-- Embedding of `Tab._captureSnapshotInternal(selector?, maxLength?)`.
External inputs are parameters: `ariaFull` is what the driver's
`_snapshotForAI()` returns, `title` is `page.title()`, `during` lists the
console messages delivered while the capture action runs, and `outcome` is
the modal race result.  With a pre-existing modal state the race returns it
without starting the action and the `tabSnapshot ?? {...}` fallback is
returned; on interruption the fallback carries the race's modal list (the
newly added modal, which `setModalState` also pushed onto the session's
list); on completion the snapshot is built and the recent console buffer is
attached late (after the race settles) and then reset. -/
def captureSnapshotInternal (s : TabState) (selector : Option String)
    (maxLength : Option Nat) (ariaFull : List Char) (title : String)
    (during : List ConsoleMessage) (outcome : CaptureOutcome) :
    CaptureResult :=
  if s.modalStates.length ≠ 0 then
    { snapshot := ⟨s.url, "", [], s.modalStates, [], []⟩,
      state := s, actionStarted := false }
  else
    match outcome with
    | .modalInterrupts m =>
      let s1 := during.foldl handleConsoleMessage s
      let s2 := { s1 with modalStates := s1.modalStates ++ [m] }
      { snapshot := ⟨s.url, "", [], [m], [], []⟩,
        state := s2, actionStarted := true }
    | .actionCompletes =>
      let s1 := during.foldl handleConsoleMessage s
      { snapshot := ⟨s.url, title, captureText selector maxLength ariaFull, [],
          s1.recentConsoleMessages, s1.downloads⟩,
        state := { s1 with recentConsoleMessages := [] },
        actionStarted := true }

/-- An operation on a live tab as seen by the claims about console-message
draining: a console event delivered by the driver, or a snapshot capture
(with its modal race outcome). -/
inductive TabOp
  | consoleEvent (m : ConsoleMessage)
  | capture (outcome : CaptureOutcome)
deriving DecidableEq

/-- The console messages delivered along a trace, in order. -/
def opMsgs : List TabOp → List ConsoleMessage
  | [] => []
  | .consoleEvent m :: ops => m :: opMsgs ops
  | .capture _ :: ops => opMsgs ops

/-- Run a trace of operations, collecting the `consoleMessages` list attached
to each returned snapshot. -/
def runOps : TabState → List TabOp → TabState × List (List ConsoleMessage)
  | s, [] => (s, [])
  | s, .consoleEvent m :: ops => runOps (handleConsoleMessage s m) ops
  | s, .capture outcome :: ops =>
    let r := captureSnapshotInternal s none none [] "" [] outcome
    let rest := runOps r.state ops
    (rest.1, r.snapshot.consoleMessages :: rest.2)

/-- Drain semantics of snapshot capture: on completion without modal
interruption the snapshot carries exactly the recent console buffer as of
completion time and the buffer is reset, so an immediately subsequent capture
with no intervening console events returns no console messages; on
interruption or with a pre-existing modal the buffer is not drained (every
buffered message, including those delivered during the action, rolls
forward) and the returned snapshot carries no console messages. -/
def CaptureDrainSpec (s : TabState) (selector : Option String)
    (maxLength : Option Nat) (ariaFull : List Char) (title : String)
    (during : List ConsoleMessage) (m : ModalState) : Prop :=
  (s.modalStates = [] →
    (captureSnapshotInternal s selector maxLength ariaFull title during
      CaptureOutcome.actionCompletes).snapshot.consoleMessages =
        s.recentConsoleMessages ++ during ∧
    (captureSnapshotInternal s selector maxLength ariaFull title during
      CaptureOutcome.actionCompletes).state.recentConsoleMessages = []) ∧
  (s.modalStates = [] → ∀ aria2 title2,
    (captureSnapshotInternal
      (captureSnapshotInternal s selector maxLength ariaFull title during
        CaptureOutcome.actionCompletes).state
      selector maxLength aria2 title2 []
      CaptureOutcome.actionCompletes).snapshot.consoleMessages = []) ∧
  (s.modalStates = [] →
    (captureSnapshotInternal s selector maxLength ariaFull title during
      (CaptureOutcome.modalInterrupts m)).snapshot.consoleMessages = [] ∧
    (captureSnapshotInternal s selector maxLength ariaFull title during
      (CaptureOutcome.modalInterrupts m)).state.recentConsoleMessages =
        s.recentConsoleMessages ++ during) ∧
  (s.modalStates ≠ [] → ∀ outcome,
    (captureSnapshotInternal s selector maxLength ariaFull title during
      outcome).state = s ∧
    (captureSnapshotInternal s selector maxLength ariaFull title during
      outcome).snapshot.consoleMessages = [])

/-- What `_onClose` actually does to the session state: console history,
recent console buffer and request map are cleared, the owning context is
notified exactly once, and everything else — including the downloads list
and the modal-state list — is left as it was. -/
def OnCloseSpec (s : TabState) : Prop :=
  onClose s = { s with
    consoleMessages := [],
    recentConsoleMessages := [],
    requests := [],
    closeNotifications := s.closeNotifications + 1 }

/-- The exact result of a capture attempted while a modal state is already
present: the action is never started, the returned snapshot has the current
page url, empty title, empty aria snapshot, the pre-existing modal list,
empty console messages and empty downloads, and the session state — in
particular the recent console buffer — is unchanged. -/
def PreexistingCaptureSpec (s : TabState) (selector : Option String)
    (maxLength : Option Nat) (ariaFull : List Char) (title : String)
    (during : List ConsoleMessage) (outcome : CaptureOutcome) : Prop :=
  captureSnapshotInternal s selector maxLength ariaFull title during outcome =
    { snapshot := ⟨s.url, "", [], s.modalStates, [], []⟩,
      state := s, actionStarted := false }

/-! ## Navigation (`navigate(url)`) -/
/-- Model of JavaScript `s.includes(pat)`. -/
def containsSub : List Char → List Char → Bool
  | [], pat => pat.isEmpty
  | c :: cs, pat => startsWithL pat (c :: cs) || containsSub cs pat

/-- The abort-style-error heuristic of `navigate`:
`e.message.includes('net::ERR_ABORTED') || e.message.includes('Download is starting')`. -/
def mightBeDownloadError (msg : List Char) : Bool :=
  containsSub msg "net::ERR_ABORTED".data ||
  containsSub msg "Download is starting".data

/-- The timeout constants consumed by `navigate`, from
`config/constants.js` (not among the sources); their concrete values are
irrelevant to the claims and are kept abstract. -/
structure Timeouts where
  LOAD_STATE_TIMEOUT : Nat
  LONG_DELAY : Nat
  SHORT_DELAY : Nat

/-- Result of a successful `navigate` call: a normal navigation whose
subsequent `load` wait is capped at the given number of milliseconds, or a
download-initiated navigation abort treated as success. -/
inductive NavResult
  | loaded (loadWaitCap : Nat)
  | downloadOutcome
deriving DecidableEq

/-- Embedding of `Tab.navigate(url)`: clear the collected artifacts, run
`page.goto` (its outcome is the parameter `gotoResult`, an abstract driver
effect); on success wait for the `load` state with the
`LOAD_STATE_TIMEOUT` cap; on rejection re-throw unless the message matches
the abort-style heuristic AND a download event arrives within the
`LONG_DELAY` grace window (parameter `downloadWithinGrace`), in which case
the call returns successfully as a download outcome. -/
def navigate (T : Timeouts) (s : TabState)
    (gotoResult : Except (List Char) Unit) (downloadWithinGrace : Bool) :
    TabState × Except (List Char) NavResult :=
  let s1 := clearCollectedArtifacts s
  match gotoResult with
  | .ok _ => (s1, .ok (.loaded T.LOAD_STATE_TIMEOUT))
  | .error e =>
    if mightBeDownloadError e = false then (s1, .error e)
    else if downloadWithinGrace then (s1, .ok .downloadOutcome)
    else (s1, .error e)

/-- Behaviour of `navigate`: the artifacts are cleared first in every case;
a successful `goto` yields a load wait capped at `LOAD_STATE_TIMEOUT`; a
rejection with an abort-style message plus a download within the grace
window is treated as a successful download outcome; every other rejection
propagates the original error unchanged. -/
def NavigateSpec (T : Timeouts) (s : TabState) (e : List Char)
    (downloadWithinGrace : Bool) : Prop :=
  (∀ g dl, (navigate T s g dl).1 = clearCollectedArtifacts s) ∧
  (∀ g dl, (navigate T s g dl).1.consoleMessages = [] ∧
    (navigate T s g dl).1.recentConsoleMessages = [] ∧
    (navigate T s g dl).1.requests = []) ∧
  (∀ dl, (navigate T s (.ok ()) dl).2 = .ok (.loaded T.LOAD_STATE_TIMEOUT)) ∧
  (mightBeDownloadError e = true → downloadWithinGrace = true →
    (navigate T s (.error e) downloadWithinGrace).2 =
      .ok .downloadOutcome) ∧
  (mightBeDownloadError e = false →
    (navigate T s (.error e) downloadWithinGrace).2 = .error e) ∧
  (downloadWithinGrace = false →
    (navigate T s (.error e) downloadWithinGrace).2 = .error e)

/-! ## Selector resolution helpers (`resolveFirstElement`,
`resolveDragElements`) -/
/-- A `SelectorResolutionResult` as consumed by the helpers: an optional
locator handle (identified by a numeric id; a JavaScript locator object is
truthy whenever present) and an optional error message (JavaScript
truthiness: `null`/`undefined` and the empty string are falsy). -/
structure SelectorResolutionResult where
  locator : Option Nat
  error : Option String
deriving DecidableEq

/-- Truthiness of the `error` field. -/
def isTruthyErr : Option String → Bool
  | none => false
  | some e => !e.isEmpty

/-- Model of `r.error || 'Unknown error'`. -/
def errOrUnknown : Option String → String
  | none => "Unknown error"
  | some e => if e.isEmpty then "Unknown error" else e

/-- The success filter `(r) => r.locator && !r.error`. -/
def successResult (r : SelectorResolutionResult) : Bool :=
  r.locator.isSome && !(isTruthyErr r.error)

/-- The aggregated error list
`resolutionResults.map((r) => r.error || 'Unknown error').join(', ')`. -/
def joinedErrors (results : List SelectorResolutionResult) : List Char :=
  List.intercalate ", ".data
    (results.map (fun r => (errOrUnknown r.error).data))

/-- Embedding of `resolveFirstElement(tab, selectors, errorMessage)` over the
list of per-alternative resolution results (one per selector, in
caller-supplied order): keep the results that resolved without error, return
the first one's locator, and when none succeeded throw
`\x7berrorMessage\x7d: \x7berrors\x7d` with every alternative's error text
joined in. -/
def resolveFirstElement (errorMessage : List Char)
    (results : List SelectorResolutionResult) : Except (List Char) Nat :=
  match results.filterMap
      (fun r => if isTruthyErr r.error then none else r.locator) with
  | [] => .error (errorMessage ++ ": ".data ++ joinedErrors results)
  | l :: _ => .ok l

/-- Embedding of `resolveDragElements(tab, startSelectors, endSelectors)`:
the same first-success rule applied to the two groups, failing on the start
group first. -/
def resolveDragElements
    (startResults endResults : List SelectorResolutionResult) :
    Except (List Char) (Nat × Nat) :=
  match startResults.filterMap
      (fun r => if isTruthyErr r.error then none else r.locator) with
  | [] => .error ("Failed to resolve start element selectors: ".data ++
      joinedErrors startResults)
  | sl :: _ =>
    match endResults.filterMap
        (fun r => if isTruthyErr r.error then none else r.locator) with
    | [] => .error ("Failed to resolve end element selectors: ".data ++
        joinedErrors endResults)
    | el :: _ => .ok (sl, el)

/-- First-success and aggregated-failure behaviour of `resolveFirstElement`:
the first alternative (in caller-supplied order) that resolved without error
wins; when every alternative failed, the thrown message carries every
alternative's error text. -/
def ResolveSpec (errorMessage : List Char)
    (results : List SelectorResolutionResult) : Prop :=
  (∀ pre r post l, results = pre ++ r :: post →
    (∀ p ∈ pre, successResult p = false) →
    successResult r = true → r.locator = some l →
    resolveFirstElement errorMessage results = .ok l) ∧
  ((∀ r ∈ results, successResult r = false) →
    resolveFirstElement errorMessage results =
      .error (errorMessage ++ ": ".data ++ joinedErrors results) ∧
    ∀ r ∈ results, (errOrUnknown r.error).data <:+:
      errorMessage ++ ": ".data ++ joinedErrors results)

/-- The same behaviour for the two selector groups of
`resolveDragElements`. -/
def DragSpec (startResults endResults : List SelectorResolutionResult) :
    Prop :=
  (∀ preS rS postS lS preE rE postE lE,
    startResults = preS ++ rS :: postS →
    (∀ p ∈ preS, successResult p = false) →
    successResult rS = true → rS.locator = some lS →
    endResults = preE ++ rE :: postE →
    (∀ p ∈ preE, successResult p = false) →
    successResult rE = true → rE.locator = some lE →
    resolveDragElements startResults endResults = .ok (lS, lE)) ∧
  ((∀ r ∈ startResults, successResult r = false) →
    resolveDragElements startResults endResults =
      .error ("Failed to resolve start element selectors: ".data ++
        joinedErrors startResults) ∧
    ∀ r ∈ startResults, (errOrUnknown r.error).data <:+:
      "Failed to resolve start element selectors: ".data ++
        joinedErrors startResults) ∧
  (∀ preS rS postS lS,
    startResults = preS ++ rS :: postS →
    (∀ p ∈ preS, successResult p = false) →
    successResult rS = true → rS.locator = some lS →
    (∀ r ∈ endResults, successResult r = false) →
    resolveDragElements startResults endResults =
      .error ("Failed to resolve end element selectors: ".data ++
        joinedErrors endResults) ∧
    ∀ r ∈ endResults, (errOrUnknown r.error).data <:+:
      "Failed to resolve end element selectors: ".data ++
        joinedErrors endResults)

/-! ## Basic lemmas about the string helpers -/
theorem trimL_length_le (s : List Char) : (trimL s).length ≤ s.length := by
  unfold trimL
  calc ((s.dropWhile isWsChar).reverse.dropWhile isWsChar).reverse.length
      = ((s.dropWhile isWsChar).reverse.dropWhile isWsChar).length := by
        rw [List.length_reverse]
    _ ≤ (s.dropWhile isWsChar).reverse.length :=
        (List.dropWhile_suffix _).length_le
    _ = (s.dropWhile isWsChar).length := by rw [List.length_reverse]
    _ ≤ s.length := (List.dropWhile_suffix _).length_le

theorem dropWhile_head?_not {p : α → Bool} {l : List α} {x : α}
    (h : (l.dropWhile p).head? = some x) : p x = false := by
  induction l with
  | nil => simp at h
  | cons a l ih =>
    by_cases hp : p a
    · rw [List.dropWhile_cons_of_pos hp] at h
      exact ih h
    · rw [List.dropWhile_cons_of_neg hp] at h
      simp only [List.head?_cons, Option.some.injEq] at h
      subst h
      simpa using hp

/-- The result of `trimL` never ends in a whitespace character. -/
theorem trimL_getLast?_not_ws {s : List Char} {c : Char}
    (hc : (trimL s).getLast? = some c) : isWsChar c = false := by
  apply dropWhile_head?_not (p := isWsChar) (l := (s.dropWhile isWsChar).reverse)
  rw [← List.getLast?_reverse]
  exact hc

/-! ## Characterisation of the descending boundary search -/
theorem findLastBoundary_some {text : List Char} :
    ∀ {n i : Nat}, findLastBoundary text n = some i →
      i < n ∧ isBoundaryChar (text.getD i ' ') = true ∧
        ∀ j, i < j → j < n → isBoundaryChar (text.getD j ' ') = false := by
  intro n
  induction n with
  | zero => intro i h; simp [findLastBoundary] at h
  | succ n ih =>
    intro i h
    unfold findLastBoundary at h
    by_cases hb : isBoundaryChar (text.getD n ' ') = true
    · rw [if_pos hb] at h
      cases h
      exact ⟨Nat.lt_succ_self _, hb, fun j hij hjn => absurd hjn (by omega)⟩
    · rw [if_neg hb] at h
      obtain ⟨hin, hbi, hmax⟩ := ih h
      refine ⟨Nat.lt_succ_of_lt hin, hbi, fun j hij hjn => ?_⟩
      rcases Nat.lt_succ_iff_lt_or_eq.mp hjn with hj | hj
      · exact hmax j hij hj
      · subst hj; exact Bool.not_eq_true _ ▸ (by simpa using hb)

theorem findLastBoundary_none {text : List Char} :
    ∀ {n : Nat}, findLastBoundary text n = none →
      ∀ j, j < n → isBoundaryChar (text.getD j ' ') = false := by
  intro n
  induction n with
  | zero => intro _ j hj; omega
  | succ n ih =>
    intro h j hj
    unfold findLastBoundary at h
    by_cases hb : isBoundaryChar (text.getD n ' ') = true
    · rw [if_pos hb] at h; cases h
    · rw [if_neg hb] at h
      rcases Nat.lt_succ_iff_lt_or_eq.mp hj with hj' | hj'
      · exact ih h j hj'
      · subst hj'; simpa using hb

theorem findLastBoundary_eq_some {text : List Char} {n i : Nat}
    (hin : i < n) (hbi : isBoundaryChar (text.getD i ' ') = true)
    (hmax : ∀ j, i < j → j < n → isBoundaryChar (text.getD j ' ') = false) :
    findLastBoundary text n = some i := by
  induction n with
  | zero => omega
  | succ n ih =>
    unfold findLastBoundary
    by_cases hb : isBoundaryChar (text.getD n ' ') = true
    · rw [if_pos hb]
      rcases Nat.lt_succ_iff_lt_or_eq.mp hin with hi | hi
      · exact absurd (hmax n hi (Nat.lt_succ_self _)) (by rw [hb]; simp)
      · rw [hi]
    · rw [if_neg hb]
      rcases Nat.lt_succ_iff_lt_or_eq.mp hin with hi | hi
      · exact ih hi fun j hij hjn => hmax j hij (Nat.lt_succ_of_lt hjn)
      · subst hi; exact absurd hbi hb

theorem findLastBoundary_eq_none {text : List Char} {n : Nat}
    (hnone : ∀ j, j < n → isBoundaryChar (text.getD j ' ') = false) :
    findLastBoundary text n = none := by
  induction n with
  | zero => rfl
  | succ n ih =>
    unfold findLastBoundary
    rw [if_neg (by rw [hnone n (Nat.lt_succ_self _)]; simp), ih]
    intro j hj
    exact hnone j (Nat.lt_succ_of_lt hj)

/-- When the cut index is at most `maxLength`, the final defensive
`result.length > maxLength` re-cut of `_truncateAtWordBoundary` never fires. -/
theorem trimL_take_length_le (text : List Char) {idx maxLength : Nat}
    (h : idx ≤ maxLength) : (trimL (text.take idx)).length ≤ maxLength :=
  le_trans (trimL_length_le _)
    (le_trans (by rw [List.length_take]; exact Nat.min_le_left _ _) h)

/-- On over-long input `_truncateAtWordBoundary` always returns the trim of a
prefix of the text, cut at the index computed from the boundary search. -/
theorem truncateAtWordBoundary_eq_trim_take (text : List Char) (maxLength : Nat)
    (h : maxLength < text.length) :
    truncateAtWordBoundary text maxLength =
      trimL (text.take
        (if isBoundaryChar (text.getD maxLength ' ') then maxLength
         else
           match findLastBoundary text maxLength with
           | some i => if maxLength - i > 20 then maxLength else i
           | none => maxLength)) := by
  have hidx : (if isBoundaryChar (text.getD maxLength ' ') then maxLength
         else
           match findLastBoundary text maxLength with
           | some i => if maxLength - i > 20 then maxLength else i
           | none => maxLength) ≤ maxLength := by
    split
    · exact le_refl _
    · split
      · rename_i i hfb
        split
        · exact le_refl _
        · exact le_of_lt (findLastBoundary_some hfb).1
      · exact le_refl _
  simp only [truncateAtWordBoundary]
  rw [if_neg (by omega)]
  rw [if_neg (not_lt.2 (trimL_take_length_le text hidx))]

theorem cutIndex_le (text : List Char) (maxLength : Nat) :
    (if isBoundaryChar (text.getD maxLength ' ') then maxLength
     else
       match findLastBoundary text maxLength with
       | some i => if maxLength - i > 20 then maxLength else i
       | none => maxLength) ≤ maxLength := by
  split
  · exact le_refl _
  · split
    · rename_i i hfb
      split
      · exact le_refl _
      · exact le_of_lt (findLastBoundary_some hfb).1
    · exact le_refl _

/-- **C3** (amended): for text longer than `maxLength` the truncation returns
at most `maxLength` characters with no trailing whitespace; if the character
at position `maxLength` is not a space/line break the cut is at the nearest
preceding boundary unless that boundary is more than 20 characters back (then
exactly at `maxLength`); a text of 100 non-space characters with
`maxLength = 50` yields 50 characters; `"aaaa aaaa aaaa aaaa"` with
`maxLength = 9` yields `"aaaa aaaa"` (9 characters), because position 9 holds
a space, so the cut is exactly at the limit. -/
theorem truncateAtWordBoundary_spec (text : List Char) (maxLength : Nat)
    (h : maxLength < text.length) :
    TruncateSpec text maxLength ∧
    truncateAtWordBoundary (List.replicate 100 'a') 50 = List.replicate 50 'a' ∧
    truncateAtWordBoundary "aaaa aaaa aaaa aaaa".data 9 = "aaaa aaaa".data := by
  refine ⟨⟨?_, ?_, ?_, ?_⟩, by decide, by decide⟩
  · rw [truncateAtWordBoundary_eq_trim_take text maxLength h]
    exact trimL_take_length_le text (cutIndex_le text maxLength)
  · intro c hc
    rw [truncateAtWordBoundary_eq_trim_take text maxLength h] at hc
    exact trimL_getLast?_not_ws hc
  · intro hb
    rw [truncateAtWordBoundary_eq_trim_take text maxLength h, if_pos hb]
  · intro hb
    constructor
    · intro i hi hbi hmaxi
      rw [truncateAtWordBoundary_eq_trim_take text maxLength h,
        if_neg (by rw [hb]; simp), findLastBoundary_eq_some hi hbi hmaxi]
      show trimL (List.take (if maxLength - i > 20 then maxLength else i) text) = _
      by_cases h20 : maxLength - i ≤ 20
      · rw [if_neg (by omega), if_pos h20]
      · rw [if_pos (by omega), if_neg h20]
    · intro hnone
      rw [truncateAtWordBoundary_eq_trim_take text maxLength h,
        if_neg (by rw [hb]; simp), findLastBoundary_eq_none hnone]

/-- **C3** counterexample: the claim asserts that `"aaaa aaaa aaaa aaaa"`
(19 characters) truncated with `maxLength = 9` yields `"aaaa"` (4 characters);
the code instead cuts exactly at position 9 (which holds a space) and returns
`"aaaa aaaa"`. -/
theorem truncateAtWordBoundary_claim_example_false :
    truncateAtWordBoundary "aaaa aaaa aaaa aaaa".data 9 ≠ "aaaa".data := by
  decide

/-- Witness instantiating `truncateAtWordBoundary_spec` at
`"aaaa aaaa aaaa aaaa"` with `maxLength = 9`. -/
theorem truncateAtWordBoundary_spec_witness :
    9 < ("aaaa aaaa aaaa aaaa".data).length ∧
      (TruncateSpec "aaaa aaaa aaaa aaaa".data 9 ∧
       truncateAtWordBoundary (List.replicate 100 'a') 50 = List.replicate 50 'a' ∧
       truncateAtWordBoundary "aaaa aaaa aaaa aaaa".data 9 = "aaaa aaaa".data) :=
  ⟨by decide, truncateAtWordBoundary_spec _ 9 (by decide)⟩

/-! ## Lemmas about the extraction scan -/
theorem captureLoop_eq_nil {role : String} {lines : List (List Char)}
    (h : ∀ l ∈ lines, matchesRole role l = false) :
    captureLoop role lines = [] := by
  induction lines with
  | nil => rfl
  | cons line rest ih =>
    unfold captureLoop
    rw [if_neg (by rw [h line (List.mem_cons_self _ _)]; simp)]
    exact ih fun l hl => h l (List.mem_cons_of_mem _ hl)

theorem captureLoop_cons_nomatch {role : String} {line : List Char}
    {rest : List (List Char)} (h : matchesRole role line = false) :
    captureLoop role (line :: rest) = captureLoop role rest := by
  conv_lhs => unfold captureLoop
  rw [if_neg (by rw [h]; simp)]

theorem captureLoop_append {role : String} {pre rest : List (List Char)}
    (h : ∀ l ∈ pre, matchesRole role l = false) :
    captureLoop role (pre ++ rest) = captureLoop role rest := by
  induction pre with
  | nil => rfl
  | cons p pre ih =>
    rw [List.cons_append, captureLoop_cons_nomatch (h p (List.mem_cons_self _ _))]
    exact ih fun l hl => h l (List.mem_cons_of_mem _ hl)

theorem captureLoop_cons_match {role : String} {line : List Char}
    {post : List (List Char)} (h : matchesRole role line = true) :
    captureLoop role (line :: post) =
      line :: post.takeWhile (fun l => indentOf line < indentOf l) := by
  unfold captureLoop
  rw [if_pos h]

/-- A line matching a role starts (after trimming) with `"- "`, hence is not
all whitespace. -/
theorem matchesRole_trimL_ne_nil {role : String} {line : List Char}
    (h : matchesRole role line = true) : trimL line ≠ [] := by
  intro hnil
  unfold matchesRole at h
  rw [hnil] at h
  simp [startsWithL] at h

theorem trimStartL_trimL_ne_nil {line : List Char} (h : trimL line ≠ []) :
    trimStartL line ≠ [] := by
  intro hnil
  apply h
  unfold trimL
  unfold trimStartL at hnil
  rw [hnil]
  rfl

theorem trimStartL_idem (l : List Char) :
    trimStartL (trimStartL l) = trimStartL l :=
  List.dropWhile_idempotent _ _

theorem trimStartL_replicate_append (k : Nat) (d : List Char)
    (hd : trimStartL d = d) :
    trimStartL (List.replicate k ' ' ++ d) = d := by
  unfold trimStartL
  rw [List.dropWhile_append]
  have h1 : (List.replicate k ' ').dropWhile isWsChar = [] := by
    rw [List.dropWhile_eq_nil_iff]
    intro x hx
    rw [List.eq_of_mem_replicate hx]
    rfl
  rw [h1]
  simp only [List.isEmpty_nil, if_pos]
  exact hd

theorem indentOf_replicate_append (k : Nat) (d : List Char)
    (hd : trimStartL d = d) :
    indentOf (List.replicate k ' ' ++ d) = k := by
  unfold indentOf
  rw [trimStartL_replicate_append k d hd, List.length_append,
    List.length_replicate]
  omega

/-- Re-indentation of a non-blank line: the new indentation is exactly the
old one minus the block's minimum indentation, and the content after the
indentation is unchanged. -/
theorem normalizeLine_indent {minIndent : Nat} {line : List Char}
    (h : trimL line ≠ []) :
    indentOf (normalizeLine minIndent line) = indentOf line - minIndent ∧
    trimStartL (normalizeLine minIndent line) = trimStartL line := by
  unfold normalizeLine
  rw [if_neg h]
  exact ⟨indentOf_replicate_append _ _ (trimStartL_idem line),
    trimStartL_replicate_append _ _ (trimStartL_idem line)⟩

/-- **C4**: partial-snapshot extraction returns the first line whose role
matches the landmark plus its strictly-deeper subtree, stopping at the first
line whose indentation is not deeper, re-indented so the landmark line has
zero leading indentation with relative nesting preserved; when no line
matches, the full input tree is returned unmodified. -/
theorem extractPartialSnapshot_spec (full : List Char) (selector : String)
    (_hsel : selector = "main" ∨ selector = "header" ∨ selector = "footer" ∨
      selector = "nav" ∨ selector = "aside" ∨ selector = "section") :
    ExtractSpec full selector := by
  refine ⟨by refine ⟨rfl, rfl, rfl, rfl, rfl, rfl⟩, ?_, ?_, ?_, ?_, ?_⟩
  · intro h
    simp only [extractPartialSnapshot]
    rw [captureLoop_eq_nil h]
    rfl
  · intro pre line post hsplit hpre hline
    simp only [extractPartialSnapshot]
    rw [hsplit, captureLoop_append hpre, captureLoop_cons_match hline]
    rfl
  · intro l hl
    rw [(normalizeLine_indent (matchesRole_trimL_ne_nil hl)).1]
    exact Nat.sub_self _
  · exact fun minIndent l h => normalizeLine_indent h
  · intro minIndent l h
    unfold normalizeLine
    rw [if_pos h]

/-- Witness instantiating `extractPartialSnapshot_spec` on a tree with a
`main` region (two children) and a sibling `contentinfo` region. -/
theorem extractPartialSnapshot_spec_witness :
    ("main" = "main" ∨ "main" = "header" ∨ "main" = "footer" ∨
      "main" = "nav" ∨ "main" = "aside" ∨ "main" = "section") ∧
    ExtractSpec
      ("- main [ref=e1]:\n  - button [ref=e2]\n  - text: hello\n- contentinfo [ref=e3]:\n  - text: foot").data
      "main" :=
  ⟨Or.inl rfl, extractPartialSnapshot_spec _ _ (Or.inl rfl)⟩

theorem foldl_navStep_active (evs : List NavEv) : ∀ (s : NavState),
    ((evs.foldl navStep s).isNavigating = true ↔
      (evs.foldl activeUpd
        (if s.isNavigating then some s.lastNavigationStart else none)).isSome) ∧
    (∀ t, evs.foldl activeUpd
        (if s.isNavigating then some s.lastNavigationStart else none) = some t →
      (evs.foldl navStep s).lastNavigationStart = t) := by
  induction evs with
  | nil =>
    intro s
    constructor
    · by_cases hs : s.isNavigating <;> simp [hs]
    · intro t ht
      by_cases hs : s.isNavigating
      · simp only [hs, if_pos, Option.some.injEq] at ht
        simpa using ht
      · simp [hs] at ht
  | cons ev evs ih =>
    intro s
    have hinit : activeUpd
        (if s.isNavigating then some s.lastNavigationStart else none) ev =
        (if (navStep s ev).isNavigating then some (navStep s ev).lastNavigationStart
         else none) := by
      cases ev <;> simp [activeUpd, navStep, handleNavigationStart,
        handleNavigationComplete]
    rw [List.foldl_cons, List.foldl_cons, hinit]
    exact ih (navStep s ev)

theorem isNavigatingAt_fst (now : Nat) (s : NavState) :
    (isNavigatingAt now s).1 =
      (s.isNavigating && decide (now - s.lastNavigationStart ≤ staleTimeout)) := by
  unfold isNavigatingAt
  by_cases hst : staleTimeout < now - s.lastNavigationStart
  · by_cases hs : s.isNavigating <;>
      simp [hs, hst, Nat.not_le.2 hst]
  · by_cases hs : s.isNavigating <;>
      simp [hs, hst, Nat.not_lt.1 hst]

/-- **C5**: for every sequence of navigation-start/complete events and query
time, `isNavigating()` returns true exactly between a navigation start and
the earlier of the completion event and the staleness threshold elapsing, and
false at all other times; whenever the elapsed time since
`lastNavigationStart` exceeds the threshold, `isNavigating` is forced false
even if no completion event was observed. -/
theorem isNavigating_spec (evs : List NavEv) (now : Nat) :
    NavigatingSpec evs now := by
  unfold NavigatingSpec
  have hchar := foldl_navStep_active evs initialNavState
  simp only [initialNavState, Bool.false_eq_true, if_false] at hchar
  obtain ⟨hiff0, hlast0⟩ := hchar
  have hiff : (runNav evs).isNavigating = true ↔ (activeStart evs).isSome :=
    hiff0
  have hlast : ∀ t, activeStart evs = some t →
      (runNav evs).lastNavigationStart = t := hlast0
  constructor
  · rw [isNavigatingAt_fst]
    constructor
    · intro h
      rw [Bool.and_eq_true] at h
      obtain ⟨h1, h2⟩ := h
      obtain ⟨t, ht⟩ := Option.isSome_iff_exists.mp (hiff.mp h1)
      refine ⟨t, ht, ?_⟩
      have hl : (runNav evs).lastNavigationStart = t := hlast t ht
      rw [← hl]
      exact of_decide_eq_true h2
    · rintro ⟨t, ht, hle⟩
      rw [Bool.and_eq_true]
      have hl : (runNav evs).lastNavigationStart = t := hlast t ht
      refine ⟨hiff.mpr (by rw [ht]; rfl), ?_⟩
      rw [hl]
      exact decide_eq_true hle
  · intro hstale
    rw [isNavigatingAt_fst]
    have : decide (now - (runNav evs).lastNavigationStart ≤ staleTimeout) =
        false := by
      exact decide_eq_false (Nat.not_le.2 hstale)
    rw [this, Bool.and_false]

/-- Witness instantiating `isNavigating_spec` on the event sequence
"start at 3ms, complete, start at 5ms" queried at 100ms. -/
theorem isNavigating_spec_witness :
    NavigatingSpec [NavEv.start 3, NavEv.complete, NavEv.start 5] 100 :=
  isNavigating_spec _ _

/-- Under a constant `lastNavigationStart` (no overlapping navigation
restarts during the wait) the poll loop resolves within the timeout plus one
interval, at the first poll whose condition holds. -/
theorem pollLoop_resolves (isNav : Nat → Bool) (lastStart : Nat → Nat)
    (t0 navT interval : Nat) (hconst : ∀ t, lastStart t = t0) :
    ∀ fuel k, navT < (k + fuel) * interval →
      ∃ t b, pollLoop isNav lastStart t0 navT interval (fuel + 1) k =
          some (t, b) ∧
        t ≤ t0 + (k + fuel) * interval ∧
        ((b = false ∧ isNav t = false) ∨ (b = true ∧ navT < t - lastStart t)) ∧
        (∀ j, k ≤ j → t0 + j * interval < t →
          isNav (t0 + j * interval) = true ∧
          ¬(navT < (t0 + j * interval) - lastStart (t0 + j * interval))) := by
  intro fuel
  induction fuel with
  | zero =>
    intro k hk
    rw [Nat.add_zero] at hk
    by_cases hn : isNav (t0 + k * interval) = true
    · refine ⟨t0 + k * interval, true, ?_, by simp,
        Or.inr ⟨rfl, by rw [hconst]; omega⟩, ?_⟩
      · unfold pollLoop
        rw [if_neg (by rw [hn]; simp), if_pos (by rw [hconst]; omega)]
      · intro j hkj hjt
        exact absurd hjt (by
          have : k * interval ≤ j * interval := Nat.mul_le_mul_right _ hkj
          omega)
    · have hn' : isNav (t0 + k * interval) = false := by
        simpa using hn
      refine ⟨t0 + k * interval, false, ?_, by simp, Or.inl ⟨rfl, hn'⟩, ?_⟩
      · unfold pollLoop
        rw [if_pos (by rw [hn']; rfl)]
      · intro j hkj hjt
        exact absurd hjt (by
          have : k * interval ≤ j * interval := Nat.mul_le_mul_right _ hkj
          omega)
  | succ fuel ih =>
    intro k hk
    by_cases hn : isNav (t0 + k * interval) = true
    · by_cases ht : navT < (t0 + k * interval) - lastStart (t0 + k * interval)
      · refine ⟨t0 + k * interval, true, ?_, ?_, Or.inr ⟨rfl, ht⟩, ?_⟩
        · unfold pollLoop
          rw [if_neg (by rw [hn]; simp), if_pos ht]
        · have : k * interval ≤ (k + (fuel + 1)) * interval :=
            Nat.mul_le_mul_right _ (by omega)
          omega
        · intro j hkj hjt
          exact absurd hjt (by
            have : k * interval ≤ j * interval := Nat.mul_le_mul_right _ hkj
            omega)
      · have hrec := ih (k + 1) (by
          have : (k + 1 + fuel) = k + (fuel + 1) := by omega
          rw [this]
          exact hk)
        obtain ⟨t, b, hres, hbound, hcond, hfirst⟩ := hrec
        refine ⟨t, b, ?_, ?_, hcond, ?_⟩
        · unfold pollLoop
          rw [if_neg (by rw [hn]; simp), if_neg ht]
          exact hres
        · have : (k + 1 + fuel) * interval = (k + (fuel + 1)) * interval := by
            ring_nf
          omega
        · intro j hkj hjt
          rcases Nat.lt_or_ge j (k + 1) with hj | hj
          · have hj' : j = k := by omega
            subst hj'
            exact ⟨hn, ht⟩
          · exact hfirst j hj hjt
    · have hn' : isNav (t0 + k * interval) = false := by
        simpa using hn
      refine ⟨t0 + k * interval, false, ?_, ?_, Or.inl ⟨rfl, hn'⟩, ?_⟩
      · unfold pollLoop
        rw [if_pos (by rw [hn']; rfl)]
      · have : k * interval ≤ (k + (fuel + 1)) * interval :=
          Nat.mul_le_mul_right _ (by omega)
        omega
      · intro j hkj hjt
        exact absurd hjt (by
          have : k * interval ≤ j * interval := Nat.mul_le_mul_right _ hkj
          omega)

/-- With navigations restarting continuously (`lastNavigationStart` advanced
to the current time at every poll, the raw `isNavigating` flag held true —
`checkComplete` never applies the staleness correction), no poll ever
resolves the promise, whatever the fuel: the elapsed-time check
`Date.now() - lastNavigationStart > navigationTimeout` compares against the
re-read, freshly advanced field and never fires. -/
theorem pollLoop_restarting_never_resolves (navT interval : Nat) :
    ∀ fuel k,
      pollLoop (fun _ => true) (fun t => t) 0 navT interval fuel k = none := by
  intro fuel
  induction fuel with
  | zero => intro k; rfl
  | succ fuel ih =>
    intro k
    unfold pollLoop
    rw [if_neg (by simp), if_neg (by omega)]
    exact ih (k + 1)

/-- **C6** counterexample: the claim's bound fails on the code.  With
`navigationTimeout = 500` and `checkInterval = 100`, a navigation that keeps
restarting (a redirect loop: `_handleNavigationStart` advances
`lastNavigationStart` to the current time before every poll and holds the
raw `isNavigating` flag true) leaves the watcher created at time 0
unresolved past every poll up to 600 ms — the claimed
`navigationTimeout + checkInterval` bound for a call at `tc = 0` — and
indeed past 700 ms: a `waitForNavigationComplete()` call awaiting this
watcher does not return within the claimed bound. -/
theorem waitForNavigationComplete_claim_counterexample :
    waitForNavigationCompleteTime
      (some (fun _ => true, fun t => t, 0)) 500 0 = none ∧
    navigationPromiseTime (fun _ => true) (fun t => t) 0 500 = none ∧
    pollLoop (fun _ => true) (fun t => t) 0 500 100 7 1 = none := by
  exact ⟨rfl, rfl, rfl⟩

/-- **C6** (amended): a `waitForNavigationComplete()` call returns within
the navigation timeout plus one polling interval of being called — whether
or not a completion event ever arrives — provided no overlapping navigation
start advances `lastNavigationStart` while the watcher polls; the watcher
polls at a fixed interval and resolves when the raw `isNavigating` flag
becomes false or when the bounded timeout, measured against the current
`lastNavigationStart`, elapses (whichever comes first; the timeout branch
also forces the flag false); a call made when no watcher exists returns
immediately.  (Without that proviso the bound fails: see the
counterexample.) -/
theorem waitForNavigationComplete_bounded (isNav : Nat → Bool)
    (lastStart : Nat → Nat) (navigationTimeout t0 tc : Nat)
    (hconst : ∀ t, lastStart t = t0) (h : t0 ≤ tc) :
    NavigationWaitSpec isNav lastStart navigationTimeout t0 tc := by
  have hdm := Nat.div_add_mod navigationTimeout 100
  have hmlt : navigationTimeout % 100 < 100 :=
    Nat.mod_lt _ (by decide)
  have hres := pollLoop_resolves isNav lastStart t0 navigationTimeout
    checkInterval hconst (navigationTimeout / checkInterval) 1
    (by unfold checkInterval; omega)
  obtain ⟨tr, b, hsome, hbound, hcond, hfirst⟩ := hres
  have hbound' : tr ≤ t0 + navigationTimeout + checkInterval := by
    unfold checkInterval at hbound ⊢
    omega
  refine ⟨⟨tr, b, hsome, hbound', hcond, hfirst, ?_, ?_⟩, rfl⟩
  · have hsome' : navigationPromiseTime isNav lastStart t0 navigationTimeout =
        some (tr, b) := hsome
    simp only [waitForNavigationCompleteTime, hsome', Option.map_some']
  · have h1 : tc ≤ tc + navigationTimeout + checkInterval := by omega
    have h2 : tr ≤ tc + navigationTimeout + checkInterval := by omega
    exact max_le h1 h2

/-- Witness instantiating `waitForNavigationComplete_bounded` with a flag
that never clears, a `lastNavigationStart` that stays at the navigation
start, timeout 500ms, navigation start and call both at 0ms. -/
theorem waitForNavigationComplete_bounded_witness :
    (∀ t : Nat, (fun _ : Nat => 0) t = 0) ∧ 0 ≤ 0 ∧
      NavigationWaitSpec (fun _ => true) (fun _ => 0) 500 0 0 :=
  ⟨fun _ => rfl, Nat.le_refl 0,
    waitForNavigationComplete_bounded (fun _ => true) (fun _ => 0) 500 0 0
      (fun _ => rfl) (Nat.le_refl 0)⟩

/-- Once the race has settled and the listener is removed, later events do
not change its outcome. -/
theorem raceStep_fixed (evs : List RaceEv) (l : List ModalState) :
    evs.foldl raceStep ⟨some l, false⟩ = ⟨some l, false⟩ := by
  induction evs with
  | nil => rfl
  | cons ev evs ih =>
    rw [List.foldl_cons]
    have hstep : raceStep ⟨some l, false⟩ ev = ⟨some l, false⟩ := by
      cases ev <;> simp [raceStep]
    rw [hstep, ih]

/-- **C1**: if the session's modal-state list is non-empty the race returns
it immediately without running the action; if it is empty the race returns
the empty list when the action settles before any modal is added (one-shot
listener removed) and returns exactly the newly added modal when a modal
state is added strictly before the action settles (every event of the trace
is one of the two kinds, so "a modal is added before the action settles"
means the trace starts with a modal addition); the action is started in both
of the latter cases and is never cancelled. -/
theorem raceAgainstModalStates_spec (existing : List ModalState)
    (trace : List RaceEv) : RaceSpec existing trace := by
  refine ⟨?_, ?_, ?_⟩
  · intro hne
    unfold raceAgainstModalStates
    rw [if_pos (by simpa using List.length_pos.mpr hne |>.ne')]
  · intro hnil rest htr
    subst hnil htr
    constructor
    · unfold raceAgainstModalStates
      rw [if_neg (by simp)]
      rw [List.foldl_cons]
      have hstep : raceStep ⟨none, true⟩ RaceEv.actionSettles =
          ⟨some [], false⟩ := by simp [raceStep]
      rw [hstep, raceStep_fixed]
    · rw [List.foldl_cons]
      have hstep : raceStep ⟨none, true⟩ RaceEv.actionSettles =
          ⟨some [], false⟩ := by simp [raceStep]
      rw [hstep, raceStep_fixed]
  · intro hnil m rest htr
    subst hnil htr
    unfold raceAgainstModalStates
    rw [if_neg (by simp)]
    rw [List.foldl_cons]
    have hstep : raceStep ⟨none, true⟩ (RaceEv.modalAdded m) =
        ⟨some [m], false⟩ := by simp [raceStep]
    rw [hstep, raceStep_fixed]

/-- Witness instantiating `raceAgainstModalStates_spec` with no pre-existing
modal state and a dialog appearing before the action settles. -/
theorem raceAgainstModalStates_spec_witness :
    RaceSpec []
      [RaceEv.modalAdded (ModalState.dialog "alert"), RaceEv.actionSettles] :=
  raceAgainstModalStates_spec _ _

theorem foldl_handleConsoleMessage (during : List ConsoleMessage) :
    ∀ s : TabState, during.foldl handleConsoleMessage s =
      { s with consoleMessages := s.consoleMessages ++ during,
               recentConsoleMessages := s.recentConsoleMessages ++ during } := by
  induction during with
  | nil => intro s; simp
  | cons m during ih =>
    intro s
    rw [List.foldl_cons, ih]
    simp [handleConsoleMessage]

/-- Messages attached to any snapshot along a trace come from the initial
recent buffer or from console events of the trace. -/
theorem runOps_attached_mem : ∀ (ops : List TabOp) (s : TabState)
    (l : List ConsoleMessage), l ∈ (runOps s ops).2 → ∀ x ∈ l,
      x ∈ s.recentConsoleMessages ∨ x ∈ opMsgs ops := by
  intro ops
  induction ops with
  | nil =>
    intro s l hl
    simp [runOps] at hl
  | cons op ops ih =>
    intro s l hl x hx
    cases op with
    | consoleEvent m =>
      have hl' : l ∈ (runOps (handleConsoleMessage s m) ops).2 := hl
      rcases ih _ l hl' x hx with h | h
      · simp only [handleConsoleMessage, List.mem_append,
          List.mem_singleton] at h
        rcases h with h | h
        · exact Or.inl h
        · exact Or.inr (by rw [h]; exact List.mem_cons_self _ _)
      · exact Or.inr (List.mem_cons_of_mem _ h)
    | capture outcome =>
      have hl' : l ∈ ((captureSnapshotInternal s none none [] "" []
            outcome).snapshot.consoleMessages ::
          (runOps (captureSnapshotInternal s none none [] "" []
            outcome).state ops).2) := hl
      by_cases hms : s.modalStates.length ≠ 0
      · rw [show captureSnapshotInternal s none none [] "" [] outcome =
            { snapshot := ⟨s.url, "", [], s.modalStates, [], []⟩,
              state := s, actionStarted := false } by
            unfold captureSnapshotInternal; rw [if_pos hms]] at hl'
        rcases List.mem_cons.mp hl' with h | h
        · subst h; simp at hx
        · rcases ih s l h x hx with h' | h'
          · exact Or.inl h'
          · exact Or.inr h'
      · cases outcome with
        | actionCompletes =>
          rw [show captureSnapshotInternal s none none [] "" []
                CaptureOutcome.actionCompletes =
              { snapshot := ⟨s.url, "", [], [], s.recentConsoleMessages,
                  s.downloads⟩,
                state := { s with recentConsoleMessages := [] },
                actionStarted := true } by
              unfold captureSnapshotInternal; rw [if_neg hms]; rfl] at hl'
          rcases List.mem_cons.mp hl' with h | h
          · subst h
            exact Or.inl hx
          · rcases ih _ l h x hx with h' | h'
            · simp at h'
            · exact Or.inr h'
        | modalInterrupts m =>
          rw [show captureSnapshotInternal s none none [] "" []
                (CaptureOutcome.modalInterrupts m) =
              { snapshot := ⟨s.url, "", [], [m], [], []⟩,
                state := { s with modalStates := s.modalStates ++ [m] },
                actionStarted := true } by
              unfold captureSnapshotInternal; rw [if_neg hms]; rfl] at hl'
          rcases List.mem_cons.mp hl' with h | h
          · subst h; simp at hx
          · rcases ih _ l h x hx with h' | h'
            · exact Or.inl h'
            · exact Or.inr h'

/-- With a pre-existing modal state the capture action never starts: the
fallback snapshot (current url, empty title/aria/console/downloads, the
existing modal list) is returned and the session state — in particular the
recent console buffer — is untouched. -/
theorem captureSnapshotInternal_preexisting (s : TabState)
    (selector : Option String) (maxLength : Option Nat) (ariaFull : List Char)
    (title : String) (during : List ConsoleMessage) (outcome : CaptureOutcome)
    (h : s.modalStates ≠ []) :
    captureSnapshotInternal s selector maxLength ariaFull title during
        outcome =
      { snapshot := ⟨s.url, "", [], s.modalStates, [], []⟩,
        state := s, actionStarted := false } := by
  unfold captureSnapshotInternal
  rw [if_pos (by simpa using (List.length_pos.mpr h).ne')]

theorem captureSnapshotInternal_completes (s : TabState)
    (selector : Option String) (maxLength : Option Nat) (ariaFull : List Char)
    (title : String) (during : List ConsoleMessage)
    (h : s.modalStates = []) :
    captureSnapshotInternal s selector maxLength ariaFull title during
        CaptureOutcome.actionCompletes =
      { snapshot := ⟨s.url, title, captureText selector maxLength ariaFull,
          [], s.recentConsoleMessages ++ during, s.downloads⟩,
        state := { s with
          consoleMessages := s.consoleMessages ++ during,
          recentConsoleMessages := [] },
        actionStarted := true } := by
  unfold captureSnapshotInternal
  rw [if_neg (by simp [h]), foldl_handleConsoleMessage]

theorem captureSnapshotInternal_interrupted (s : TabState)
    (selector : Option String) (maxLength : Option Nat) (ariaFull : List Char)
    (title : String) (during : List ConsoleMessage) (m : ModalState)
    (h : s.modalStates = []) :
    captureSnapshotInternal s selector maxLength ariaFull title during
        (CaptureOutcome.modalInterrupts m) =
      { snapshot := ⟨s.url, "", [], [m], [], []⟩,
        state := { s with
          consoleMessages := s.consoleMessages ++ during,
          recentConsoleMessages := s.recentConsoleMessages ++ during,
          modalStates := s.modalStates ++ [m] },
        actionStarted := true } := by
  unfold captureSnapshotInternal
  rw [if_neg (by simp [h]), foldl_handleConsoleMessage]

/-- When all console messages of a trace are distinct (and distinct from the
initial recent buffer), the console lists attached to the snapshots returned
along the trace are pairwise disjoint: no message is attached to two
snapshots. -/
theorem runOps_attached_disjoint : ∀ (ops : List TabOp) (s : TabState),
    (s.recentConsoleMessages ++ opMsgs ops).Nodup →
    List.Pairwise (fun a b => ∀ x ∈ a, x ∉ b) (runOps s ops).2 := by
  intro ops
  induction ops with
  | nil =>
    intro s _
    exact List.Pairwise.nil
  | cons op ops ih =>
    intro s hnd
    cases op with
    | consoleEvent m =>
      show List.Pairwise _ (runOps (handleConsoleMessage s m) ops).2
      apply ih
      simp only [handleConsoleMessage]
      have : s.recentConsoleMessages ++ [m] ++ opMsgs ops =
          s.recentConsoleMessages ++ opMsgs (TabOp.consoleEvent m :: ops) := by
        simp [opMsgs]
      rw [this]
      exact hnd
    | capture outcome =>
      have hmsgs : opMsgs (TabOp.capture outcome :: ops) = opMsgs ops := rfl
      rw [hmsgs] at hnd
      by_cases hms : s.modalStates = []
      · cases outcome with
        | actionCompletes =>
          have hr := captureSnapshotInternal_completes s none none [] "" []
            hms
          show List.Pairwise _
            ((captureSnapshotInternal s none none [] "" []
                CaptureOutcome.actionCompletes).snapshot.consoleMessages ::
              (runOps (captureSnapshotInternal s none none [] "" []
                CaptureOutcome.actionCompletes).state ops).2)
          rw [hr]
          refine List.Pairwise.cons ?_ ?_
          · intro b hb x hx hxb
            have := runOps_attached_mem ops _ b hb x hxb
            simp only [List.append_nil] at this hx
            rcases this with h' | h'
            · simp at h'
            · exact absurd h'
                (List.disjoint_of_nodup_append hnd hx)
          · apply ih
            simpa using hnd.of_append_right
        | modalInterrupts m =>
          have hr := captureSnapshotInternal_interrupted s none none [] "" []
            m hms
          show List.Pairwise _
            ((captureSnapshotInternal s none none [] "" []
                (CaptureOutcome.modalInterrupts m)).snapshot.consoleMessages ::
              (runOps (captureSnapshotInternal s none none [] "" []
                (CaptureOutcome.modalInterrupts m)).state ops).2)
          rw [hr]
          refine List.Pairwise.cons (by simp) ?_
          apply ih
          simpa using hnd
      · have hr := captureSnapshotInternal_preexisting s none none [] "" []
          outcome hms
        show List.Pairwise _
          ((captureSnapshotInternal s none none [] "" []
              outcome).snapshot.consoleMessages ::
            (runOps (captureSnapshotInternal s none none [] "" []
              outcome).state ops).2)
        rw [hr]
        exact List.Pairwise.cons (by simp) (ih s hnd)

/-- **C2**: a capture completing without modal interruption attaches exactly
the recent console buffer to the returned snapshot and resets the buffer
(so an immediately subsequent capture returns no console messages unless new
console events occurred in between); a capture interrupted by, or skipped
because of, a modal state leaves the buffer undrained and it rolls forward;
and along any trace of console events and captures with distinct messages,
no console message is attached to two snapshots. -/
theorem captureSnapshot_drain_spec (s : TabState) (selector : Option String)
    (maxLength : Option Nat) (ariaFull : List Char) (title : String)
    (during : List ConsoleMessage) (m : ModalState) :
    CaptureDrainSpec s selector maxLength ariaFull title during m ∧
    ∀ (ops : List TabOp) (s0 : TabState),
      (s0.recentConsoleMessages ++ opMsgs ops).Nodup →
      List.Pairwise (fun a b => ∀ x ∈ a, x ∉ b) (runOps s0 ops).2 := by
  refine ⟨⟨?_, ?_, ?_, ?_⟩, runOps_attached_disjoint⟩
  · intro hms
    rw [captureSnapshotInternal_completes s selector maxLength ariaFull title
      during hms]
    exact ⟨rfl, rfl⟩
  · intro hms aria2 title2
    rw [captureSnapshotInternal_completes s selector maxLength ariaFull title
      during hms]
    rw [captureSnapshotInternal_completes _ selector maxLength aria2 title2
      [] (by exact hms)]
    simp
  · intro hms
    rw [captureSnapshotInternal_interrupted s selector maxLength ariaFull
      title during m hms]
    exact ⟨rfl, rfl⟩
  · intro hms outcome
    rw [captureSnapshotInternal_preexisting s selector maxLength ariaFull
      title during outcome hms]
    exact ⟨rfl, rfl⟩

/-- Witness instantiating `captureSnapshot_drain_spec` at a concrete state
with one buffered message and one message delivered during the capture. -/
theorem captureSnapshot_drain_spec_witness :
    CaptureDrainSpec ⟨"u", "t", [⟨some "log", "old"⟩], [⟨some "log", "old"⟩],
        [], [], [], 0⟩ none (some 5) "hello world".data "T"
        [⟨some "log", "new"⟩] (ModalState.dialog "d") ∧
    ∀ (ops : List TabOp) (s0 : TabState),
      (s0.recentConsoleMessages ++ opMsgs ops).Nodup →
      List.Pairwise (fun a b => ∀ x ∈ a, x ∉ b) (runOps s0 ops).2 :=
  captureSnapshot_drain_spec _ _ _ _ _ _ _

/-- **C9** (amended): on the driver's page-close event the session
synchronously clears its console message history, recent console messages
and request/response map, and notifies the owning context exactly once per
close event; the downloads list and the modal-state list are not cleared. -/
theorem onClose_spec (s : TabState) : OnCloseSpec s := rfl

/-- **C9** counterexample: the claim says the close handler clears the
downloads list and the modal-state list; on a state holding one finished
download and one open dialog, both survive `_onClose` untouched. -/
theorem onClose_claim_counterexample :
    (onClose ⟨"u", "t", [⟨some "log", "m"⟩], [⟨some "log", "m"⟩],
        [⟨1, none⟩], [⟨"f.txt", true, "/out/f.txt"⟩],
        [ModalState.dialog "alert"], 0⟩).downloads ≠ [] ∧
    (onClose ⟨"u", "t", [⟨some "log", "m"⟩], [⟨some "log", "m"⟩],
        [⟨1, none⟩], [⟨"f.txt", true, "/out/f.txt"⟩],
        [ModalState.dialog "alert"], 0⟩).modalStates ≠ [] := by
  refine ⟨?_, ?_⟩ <;> simp [onClose, clearCollectedArtifacts]

/-- **C10**: when at least one modal state is present at the start of
`captureSnapshot`/`capturePartialSnapshot`, the capture action never starts
and the fallback snapshot (current url, empty title, empty ariaSnapshot, the
pre-existing modal list, empty console messages, empty downloads) is
returned with the recent console buffer untouched. -/
theorem capturePreexistingModal_spec (s : TabState) (selector : Option String)
    (maxLength : Option Nat) (ariaFull : List Char) (title : String)
    (during : List ConsoleMessage) (outcome : CaptureOutcome)
    (h : s.modalStates ≠ []) :
    PreexistingCaptureSpec s selector maxLength ariaFull title during
      outcome :=
  captureSnapshotInternal_preexisting s selector maxLength ariaFull title
    during outcome h

/-- Witness instantiating `capturePreexistingModal_spec` on a session with an
open file chooser and a non-empty recent console buffer. -/
theorem capturePreexistingModal_spec_witness :
    (⟨"u", "t", [], [⟨some "log", "m"⟩], [], [],
        [ModalState.fileChooser "File chooser"], 0⟩ : TabState).modalStates ≠
      [] ∧
    PreexistingCaptureSpec ⟨"u", "t", [], [⟨some "log", "m"⟩], [], [],
        [ModalState.fileChooser "File chooser"], 0⟩ (some "main") (some 10)
      "aria".data "T" [⟨some "log", "x"⟩] CaptureOutcome.actionCompletes :=
  ⟨by decide, capturePreexistingModal_spec _ _ _ _ _ _ _ (by decide)⟩

/-- **C7**: `navigate(url)` first clears the collected artifacts; a
rejection with an abort-style error and a download event within the bounded
grace period returns successfully as a download outcome; every other
rejection propagates the original error; after a successful non-download
navigation the page-load wait is bounded by the fixed `LOAD_STATE_TIMEOUT`
ceiling. -/
theorem navigate_spec (T : Timeouts) (s : TabState) (e : List Char)
    (downloadWithinGrace : Bool) :
    NavigateSpec T s e downloadWithinGrace := by
  refine ⟨?_, ?_, ?_, ?_, ?_, ?_⟩
  · intro g dl
    cases g with
    | ok _ => rfl
    | error e' =>
      simp only [navigate]
      by_cases hd : mightBeDownloadError e' = false
      · rw [if_pos hd]
      · rw [if_neg hd]
        cases dl <;> simp
  · intro g dl
    cases g with
    | ok _ => exact ⟨rfl, rfl, rfl⟩
    | error e' =>
      simp only [navigate]
      by_cases hd : mightBeDownloadError e' = false
      · rw [if_pos hd]; exact ⟨rfl, rfl, rfl⟩
      · rw [if_neg hd]
        cases dl <;> exact ⟨rfl, rfl, rfl⟩
  · intro dl; rfl
  · intro hd hdl
    subst hdl
    simp only [navigate]
    rw [if_neg (by rw [hd]; simp), if_pos trivial]
  · intro hd
    simp only [navigate]
    rw [if_pos hd]
  · intro hdl
    subst hdl
    simp only [navigate]
    by_cases hd : mightBeDownloadError e = false
    · rw [if_pos hd]
    · rw [if_neg hd, if_neg (by simp)]

/-- Witness instantiating `navigate_spec` on a chromium-style abort message
with the download arriving inside the grace window. -/
theorem navigate_spec_witness :
    NavigateSpec ⟨5000, 1000, 100⟩ ⟨"u", "t", [], [], [], [], [], 0⟩
      "net::ERR_ABORTED at https://x/file.zip".data true :=
  navigate_spec _ _ _ _

theorem filterMap_none_of_fail {r : SelectorResolutionResult}
    (h : successResult r = false) :
    (if isTruthyErr r.error then none else r.locator) = none := by
  unfold successResult at h
  by_cases he : isTruthyErr r.error
  · rw [if_pos he]
  · rw [if_neg he]
    rw [Bool.and_eq_false_iff] at h
    rcases h with h | h
    · exact Option.not_isSome_iff_eq_none.mp (by simp [h])
    · exact absurd h (by simp [Bool.not_eq_false] at he ⊢; simp [he])

theorem filterMap_some_of_success {r : SelectorResolutionResult} {l : Nat}
    (h : successResult r = true) (hl : r.locator = some l) :
    (if isTruthyErr r.error then none else r.locator) = some l := by
  unfold successResult at h
  rw [Bool.and_eq_true] at h
  rw [if_neg (by simp [Bool.not_eq_true'] at h; simp [h.2]), hl]

/-- The successful-results filter on a list whose first success is `r`. -/
theorem filterMap_first_success
    {pre : List SelectorResolutionResult} {r : SelectorResolutionResult}
    {post : List SelectorResolutionResult} {l : Nat}
    (hpre : ∀ p ∈ pre, successResult p = false)
    (hr : successResult r = true) (hl : r.locator = some l) :
    (pre ++ r :: post).filterMap
        (fun x => if isTruthyErr x.error then none else x.locator) =
      l :: post.filterMap
        (fun x => if isTruthyErr x.error then none else x.locator) := by
  induction pre with
  | nil =>
    rw [List.nil_append, List.filterMap_cons,
      filterMap_some_of_success hr hl]
  | cons p pre ih =>
    rw [List.cons_append, List.filterMap_cons,
      filterMap_none_of_fail (hpre p (List.mem_cons_self _ _))]
    exact ih fun q hq => hpre q (List.mem_cons_of_mem _ hq)

/-- The successful-results filter on a list of failures is empty. -/
theorem filterMap_all_fail {results : List SelectorResolutionResult}
    (h : ∀ r ∈ results, successResult r = false) :
    results.filterMap
        (fun x => if isTruthyErr x.error then none else x.locator) = [] := by
  induction results with
  | nil => rfl
  | cons r results ih =>
    rw [List.filterMap_cons, filterMap_none_of_fail (h r (List.mem_cons_self _ _))]
    exact ih fun q hq => h q (List.mem_cons_of_mem _ hq)

/-- Every part of an intercalated list is an infix of the join. -/
theorem infix_intercalate {α : Type} (sep : List α) :
    ∀ (parts : List (List α)) (a : List α), a ∈ parts →
      a <:+: List.intercalate sep parts := by
  intro parts
  induction parts with
  | nil => intro a ha; simp at ha
  | cons p ps ih =>
    intro a ha
    rcases List.mem_cons.mp ha with ha | ha
    · subst ha
      cases ps with
      | nil => simp [List.intercalate]
      | cons q rest =>
        rw [show List.intercalate sep (a :: q :: rest) =
            a ++ sep ++ List.intercalate sep (q :: rest) by
          simp [List.intercalate]]
        rw [List.append_assoc]
        exact List.IsPrefix.isInfix (List.prefix_append a _)
    · cases ps with
      | nil => simp at ha
      | cons q rest =>
        rw [show List.intercalate sep (p :: q :: rest) =
            p ++ sep ++ List.intercalate sep (q :: rest) by
          simp [List.intercalate]]
        refine (ih a ha).trans ?_
        exact List.IsSuffix.isInfix (List.suffix_append _ _)

/-- Every alternative's error text appears in the aggregated message. -/
theorem errText_infix_joinedErrors {results : List SelectorResolutionResult}
    {r : SelectorResolutionResult} (h : r ∈ results) :
    (errOrUnknown r.error).data <:+: joinedErrors results :=
  infix_intercalate _ _ _ (List.mem_map_of_mem _ h)

/-- **C8**: for every non-empty list of alternative resolution results,
resolution returns the locator of the first alternative (in caller-supplied
order) that resolved without error, and fails only when every alternative
failed, with the thrown message containing every alternative's error text;
the same holds per group for drag resolution; with alternatives `[A, B]`
where A fails and B succeeds, B's locator is returned, and when both fail
the message contains both error texts. -/
theorem resolveFirstElement_spec (errorMessage : List Char)
    (results : List SelectorResolutionResult) :
    ResolveSpec errorMessage results ∧
    (∀ startResults endResults, DragSpec startResults endResults) ∧
    resolveFirstElement "err".data
      [⟨none, some "A broke"⟩, ⟨some 7, none⟩] = .ok 7 ∧
    (resolveFirstElement "err".data
      [⟨none, some "A broke"⟩, ⟨none, some "B broke"⟩] =
        .error "err: A broke, B broke".data ∧
      "A broke".data <:+: "err: A broke, B broke".data ∧
      "B broke".data <:+: "err: A broke, B broke".data) := by
  refine ⟨⟨?_, ?_⟩, fun startResults endResults => ⟨?_, ?_, ?_⟩,
    by rfl, by rfl, by decide, by decide⟩
  · intro pre r post l hsplit hpre hr hl
    subst hsplit
    unfold resolveFirstElement
    rw [filterMap_first_success hpre hr hl]
  · intro hall
    unfold resolveFirstElement
    rw [filterMap_all_fail hall]
    refine ⟨rfl, fun r hr => ?_⟩
    exact List.IsInfix.trans (errText_infix_joinedErrors hr)
      (List.IsSuffix.isInfix (List.suffix_append _ _))
  · intro preS rS postS lS preE rE postE lE hS hpreS hrS hlS hE hpreE hrE hlE
    subst hS hE
    unfold resolveDragElements
    rw [filterMap_first_success hpreS hrS hlS,
      filterMap_first_success hpreE hrE hlE]
  · intro hall
    unfold resolveDragElements
    rw [filterMap_all_fail hall]
    refine ⟨rfl, fun r hr => ?_⟩
    exact List.IsInfix.trans (errText_infix_joinedErrors hr)
      (List.IsSuffix.isInfix (List.suffix_append _ _))
  · intro preS rS postS lS hS hpreS hrS hlS hallE
    subst hS
    unfold resolveDragElements
    rw [filterMap_first_success hpreS hrS hlS, filterMap_all_fail hallE]
    refine ⟨rfl, fun r hr => ?_⟩
    exact List.IsInfix.trans (errText_infix_joinedErrors hr)
      (List.IsSuffix.isInfix (List.suffix_append _ _))

/-- Witness instantiating `resolveFirstElement_spec` at a concrete error
prefix and a failing-then-succeeding alternative list. -/
theorem resolveFirstElement_spec_witness :
    ResolveSpec "Failed to resolve element selectors".data
      [⟨none, some "no node found"⟩, ⟨some 3, none⟩] ∧
    (∀ startResults endResults, DragSpec startResults endResults) ∧
    resolveFirstElement "err".data
      [⟨none, some "A broke"⟩, ⟨some 7, none⟩] = .ok 7 ∧
    (resolveFirstElement "err".data
      [⟨none, some "A broke"⟩, ⟨none, some "B broke"⟩] =
        .error "err: A broke, B broke".data ∧
      "A broke".data <:+: "err: A broke, B broke".data ∧
      "B broke".data <:+: "err: A broke, B broke".data) :=
  resolveFirstElement_spec _ _

end Tab
